import Mathlib

/-!
Shallow embedding of the trackvisualizer core: the geodesic distance
function, the track statistics aggregator, the GPX-to-Track normalizer,
the photo batch pipeline and the track style updater, together with
theorems settling the specification claims about them.

Numbers are modelled as ideal real numbers; the `Infinity` / `-Infinity`
sentinels used by the statistics accumulator are modelled by `Option ℝ`
(`none` plays the role of the untouched sentinel), and JavaScript `Date`
values by their real-valued epoch milliseconds.
-/

namespace TrackVisualizer

/-- A point of a track segment (interface `TrackPoint`): latitude and
longitude in degrees, optional elevation in meters, optional timestamp in
epoch milliseconds (the value of `Date.getTime`). -/
structure TrackPoint where
  lat : ℝ
  lon : ℝ
  ele : Option ℝ
  time : Option ℝ

/-- A track segment (interface `TrackSegment`): an ordered list of points. -/
structure TrackSegment where
  points : List TrackPoint

/-- The derived statistics record (interface `TrackStats`). -/
structure TrackStats where
  distance : ℝ
  elevationGain : ℝ
  elevationLoss : ℝ
  minElevation : ℝ
  maxElevation : ℝ
  duration : Option ℝ

/-- Model of JavaScript `Math.atan2 y x` over ideal reals (the signed-zero
distinctions of floating point collapse into the plain `x = 0` cases). -/
noncomputable def atan2 (y x : ℝ) : ℝ :=
  if 0 < x then Real.arctan (y / x)
  else if x < 0 ∧ 0 ≤ y then Real.arctan (y / x) + Real.pi
  else if x < 0 then Real.arctan (y / x) - Real.pi
  else if x = 0 ∧ 0 < y then Real.pi / 2
  else if x = 0 ∧ y < 0 then -(Real.pi / 2)
  else 0

/-- The haversine intermediate value `a` of `calculateDistance`:
`sin(Δφ/2)·sin(Δφ/2) + cos(φ1)·cos(φ2)·sin(Δλ/2)·sin(Δλ/2)` with the
degree-to-radian conversions written out as in the source. -/
noncomputable def havA (lat1 lon1 lat2 lon2 : ℝ) : ℝ :=
  Real.sin ((lat2 - lat1) * Real.pi / 180 / 2) *
      Real.sin ((lat2 - lat1) * Real.pi / 180 / 2) +
    Real.cos (lat1 * Real.pi / 180) * Real.cos (lat2 * Real.pi / 180) *
      Real.sin ((lon2 - lon1) * Real.pi / 180 / 2) *
      Real.sin ((lon2 - lon1) * Real.pi / 180 / 2)

/-- The geodesic distance function `calculateDistance`: haversine formula
with Earth radius 6371000 m, `c = 2 · atan2(√a, √(1-a))`, result `R · c`. -/
noncomputable def calculateDistance (lat1 lon1 lat2 lon2 : ℝ) : ℝ :=
  6371000 *
    (2 * atan2 (Real.sqrt (havA lat1 lon1 lat2 lon2))
      (Real.sqrt (1 - havA lat1 lon1 lat2 lon2)))

/-- The mutable accumulator of `calculateTrackStats` before the final
sentinel reset: `minElevation = Infinity`, `maxElevation = -Infinity`,
`startTime` and `endTime` undefined are all modelled as `none`. -/
structure StatsAcc where
  totalDistance : ℝ
  elevationGain : ℝ
  elevationLoss : ℝ
  minElevation : Option ℝ
  maxElevation : Option ℝ
  startTime : Option ℝ
  endTime : Option ℝ

/-- The initial accumulator of `calculateTrackStats`. -/
def initAcc : StatsAcc := ⟨0, 0, 0, none, none, none, none⟩

/-- The `point.ele !== undefined` branch of the loop body: update the
min/max elevation sentinels. -/
noncomputable def updateMinMax (acc : StatsAcc) (p : TrackPoint) : StatsAcc :=
  match p.ele with
  | some e =>
      { acc with
        minElevation := some (match acc.minElevation with
          | some m => min m e
          | none => e)
        maxElevation := some (match acc.maxElevation with
          | some m => max m e
          | none => e) }
  | none => acc

/-- The `point.time` branch of the loop body: update the start/end time. -/
noncomputable def updateTimes (acc : StatsAcc) (p : TrackPoint) : StatsAcc :=
  match p.time with
  | some t =>
      { acc with
        startTime := some (match acc.startTime with
          | some s => if t < s then t else s
          | none => t)
        endTime := some (match acc.endTime with
          | some e => if e < t then t else e
          | none => t) }
  | none => acc

/-- The `i > 0` branch of the loop body: accumulate the distance to the
previous point, and the elevation difference when both points carry an
elevation. -/
noncomputable def updatePair (acc : StatsAcc) (q p : TrackPoint) : StatsAcc :=
  let acc1 := { acc with
    totalDistance := acc.totalDistance + calculateDistance q.lat q.lon p.lat p.lon }
  match p.ele, q.ele with
  | some pe, some qe =>
      if 0 < pe - qe then
        { acc1 with elevationGain := acc1.elevationGain + (pe - qe) }
      else
        { acc1 with elevationLoss := acc1.elevationLoss + |pe - qe| }
  | _, _ => acc1

/-- One iteration of the inner point loop of `calculateTrackStats`;
`prev` is `segment.points[i-1]` when `i > 0` and `none` when `i = 0`. -/
noncomputable def stepPoint (acc : StatsAcc) (prev : Option TrackPoint)
    (p : TrackPoint) : StatsAcc :=
  let a := updateTimes (updateMinMax acc p) p
  match prev with
  | some q => updatePair a q p
  | none => a

/-- The inner point loop of `calculateTrackStats` over one segment,
threading the previous point. -/
noncomputable def processPoints (acc : StatsAcc) (prev : Option TrackPoint) :
    List TrackPoint → StatsAcc
  | [] => acc
  | p :: rest => processPoints (stepPoint acc prev p) (some p) rest

/-- The track statistics aggregator `calculateTrackStats`: fold the point
loop over all segments (the previous-point tracker restarts at each
segment), then reset untouched sentinels to `0` and derive the duration. -/
noncomputable def calculateTrackStats (segments : List TrackSegment) : TrackStats :=
  let acc := segments.foldl (fun a seg => processPoints a none seg.points) initAcc
  { distance := acc.totalDistance
    elevationGain := acc.elevationGain
    elevationLoss := acc.elevationLoss
    minElevation := match acc.minElevation with
      | some m => m
      | none => 0
    maxElevation := match acc.maxElevation with
      | some m => m
      | none => 0
    duration := match acc.startTime, acc.endTime with
      | some s, some e => some ((e - s) / 1000)
      | _, _ => none }

/-- The haversine distance between an adjacent pair `(prev, cur)`. -/
noncomputable def pairDist (q p : TrackPoint) : ℝ :=
  calculateDistance q.lat q.lon p.lat p.lon

/-- Spec-side description of distance accumulation (section 4.2 of the
spec): the sum, over the adjacent point pairs of one segment, of the
haversine distances. -/
noncomputable def specSegmentDistance (pts : List TrackPoint) : ℝ :=
  ((pts.zip pts.tail).map (fun qp => pairDist qp.1 qp.2)).sum

/-- Spec-side description of the total distance: each segment contributes
independently; no distance is accumulated across a segment boundary. -/
noncomputable def specTotalDistance (segments : List TrackSegment) : ℝ :=
  (segments.map (fun s => specSegmentDistance s.points)).sum

/-- Spec-side gain contribution of one adjacent pair `(prev, cur)`: the
delta `cur.ele - prev.ele` when both elevations are present and the delta
is strictly positive, `0` otherwise. -/
noncomputable def pairGain (q p : TrackPoint) : ℝ :=
  match q.ele, p.ele with
  | some qe, some pe => if 0 < pe - qe then pe - qe else 0
  | _, _ => 0

/-- Spec-side loss contribution of one adjacent pair `(prev, cur)`: the
absolute value of a negative-or-zero delta when both elevations are
present, `0` otherwise. -/
noncomputable def pairLoss (q p : TrackPoint) : ℝ :=
  match q.ele, p.ele with
  | some qe, some pe => if 0 < pe - qe then 0 else |pe - qe|
  | _, _ => 0

/-- Spec-side elevation gain of one segment: summed over adjacent pairs. -/
noncomputable def specSegmentGain (pts : List TrackPoint) : ℝ :=
  ((pts.zip pts.tail).map (fun qp => pairGain qp.1 qp.2)).sum

/-- Spec-side elevation loss of one segment: summed over adjacent pairs. -/
noncomputable def specSegmentLoss (pts : List TrackPoint) : ℝ :=
  ((pts.zip pts.tail).map (fun qp => pairLoss qp.1 qp.2)).sum

/-- Spec-side elevation gain of a track: summed over segments. -/
noncomputable def specElevationGain (segments : List TrackSegment) : ℝ :=
  (segments.map (fun s => specSegmentGain s.points)).sum

/-- Spec-side elevation loss of a track: summed over segments. -/
noncomputable def specElevationLoss (segments : List TrackSegment) : ℝ :=
  (segments.map (fun s => specSegmentLoss s.points)).sum

/-- Sum of a pairwise quantity along the chain `q :: pts` (proof helper
relating the point loop to the adjacent-pair sums). -/
noncomputable def chainSum (f : TrackPoint → TrackPoint → ℝ) :
    TrackPoint → List TrackPoint → ℝ
  | _, [] => 0
  | q, p :: rest => f q p + chainSum f p rest

/-- Ordering of the two optional sentinels of the accumulator: either both
are still untouched or both are set and ordered (proof helper). -/
def sentinelLE : Option ℝ → Option ℝ → Prop
  | none, none => True
  | some a, some b => a ≤ b
  | _, _ => False

/-- A track style (interface `TrackStyle`). -/
structure TrackStyle where
  color : String
  width : ℝ
  opacity : ℝ
  lineStyle : String

/-- The default style used for every emitted track and by `useTracks`. -/
noncomputable def defaultStyle : TrackStyle :=
  { color := "#E53E3E", width := 3, opacity := 1, lineStyle := "solid" }

/-- A normalized track (interface `Track`). -/
structure Track where
  id : String
  name : String
  segments : List TrackSegment
  style : TrackStyle
  visible : Bool
  stats : Option TrackStats

/-- JavaScript string truthiness as used by `a || b` on an optional string:
`none` and the empty string are falsy and fall through to the default. -/
def jsOr (s : Option String) (d : String) : String :=
  match s with
  | some v => if v = "" then d else v
  | none => d

/-- A point as exposed by the external GPX parsing library (`GPXPoint`):
the optional time string is modelled already parsed to epoch milliseconds
(`new Date(point.time)`), absent when the source string is falsy. -/
structure GPXPoint where
  lat : ℝ
  lon : ℝ
  ele : Option ℝ
  time : Option ℝ

/-- A source track from the GPX library (`GPXTrack`). -/
structure GPXSrcTrack where
  name : Option String
  points : List GPXPoint

/-- A source route from the GPX library (`GPXRoute`). -/
structure GPXSrcRoute where
  name : Option String
  points : List GPXPoint

/-- A source waypoint from the GPX library (`GPXWaypoint`). -/
structure GPXWaypoint where
  lat : ℝ
  lon : ℝ
  ele : Option ℝ
  name : Option String

/-- The parsed document handed to the normalizer: an absent `tracks` /
`routes` / `waypoints` field of the library object behaves exactly like an
empty list in the source (both fail the `x && x.length > 0` guards), so
each is modelled as a plain list. -/
structure ParsedGPX where
  tracks : List GPXSrcTrack
  routes : List GPXSrcRoute
  waypoints : List GPXWaypoint

/-- Conversion of a library point into a `TrackPoint` as done in the
track branch of `parseGPXString`. -/
def gpxPointToTrackPoint (p : GPXPoint) : TrackPoint :=
  { lat := p.lat, lon := p.lon, ele := p.ele, time := p.time }

/-- Conversion of a library point into a `TrackPoint` as done in the
route branch of `parseGPXString` (the time field is not copied). -/
def routePointToTrackPoint (p : GPXPoint) : TrackPoint :=
  { lat := p.lat, lon := p.lon, ele := p.ele, time := none }

/-- Conversion of a waypoint into a `TrackPoint` as done in the waypoint
branch of `parseGPXString`. -/
def waypointToTrackPoint (w : GPXWaypoint) : TrackPoint :=
  { lat := w.lat, lon := w.lon, ele := w.ele, time := none }

/-- The segment list built for a source track: the loop pushes a first
segment only when at least one point exists, so an empty point list yields
no segment at all. -/
def srcTrackSegments (pts : List GPXPoint) : List TrackSegment :=
  match pts with
  | [] => []
  | _ => [⟨pts.map gpxPointToTrackPoint⟩]

/-- The `Track` emitted for the source track at position `trackIndex`
(`Date.now()` is passed in as `now`). -/
noncomputable def mkSrcTrack (now : ℕ) (fileName : Option String)
    (trackIndex : ℕ) (t : GPXSrcTrack) : Track :=
  { id := "track-" ++ toString now ++ "-" ++ toString trackIndex
    name := jsOr t.name (jsOr fileName ("Track " ++ toString (trackIndex + 1)))
    segments := srcTrackSegments t.points
    style := defaultStyle
    visible := true
    stats := some (calculateTrackStats (srcTrackSegments t.points)) }

/-- The `Track` emitted for the route at position `routeIndex`: a single
segment is always created, and the name falls back to the ordinal label
directly (the filename is not consulted). -/
noncomputable def mkRouteTrack (now : ℕ) (routeIndex : ℕ)
    (r : GPXSrcRoute) : Track :=
  { id := "route-" ++ toString now ++ "-" ++ toString routeIndex
    name := jsOr r.name ("Route " ++ toString (routeIndex + 1))
    segments := [⟨r.points.map routePointToTrackPoint⟩]
    style := defaultStyle
    visible := true
    stats := some (calculateTrackStats [⟨r.points.map routePointToTrackPoint⟩]) }

/-- The synthetic `Track` wrapping all waypoints as a single segment. -/
noncomputable def mkWaypointTrack (now : ℕ) (fileName : Option String)
    (ws : List GPXWaypoint) : Track :=
  { id := "waypoints-" ++ toString now
    name := jsOr fileName "Waypoints"
    segments := [⟨ws.map waypointToTrackPoint⟩]
    style := defaultStyle
    visible := true
    stats := some (calculateTrackStats [⟨ws.map waypointToTrackPoint⟩]) }

/-- Indexed map modelling `forEach((x, index) => ...)` pushes in order. -/
def mapWithIndex {α β : Type} (f : ℕ → α → β) : ℕ → List α → List β
  | _, [] => []
  | i, a :: rest => f i a :: mapWithIndex f (i + 1) rest

/-- The GPX-to-Track normalizer `parseGPXString`, modelled on the parsed
document (the external library call and the `window` guard are outside the
model); `now` stands for `Date.now()`. The waypoint branch fires only when
the accumulated `tracks` array — which already includes the route tracks —
is still empty, and an empty result is the thrown
`No tracks, routes, or waypoints found in GPX file` error. -/
noncomputable def parseGPXString (gpx : ParsedGPX) (fileName : Option String)
    (now : ℕ) : Except String (List Track) :=
  let fromTracks := mapWithIndex (fun i t => mkSrcTrack now fileName i t) 0 gpx.tracks
  let fromRoutes := mapWithIndex (fun i r => mkRouteTrack now i r) 0 gpx.routes
  let emitted := fromTracks ++ fromRoutes
  let withWaypoints :=
    if 0 < gpx.waypoints.length ∧ emitted.length = 0 then
      emitted ++ [mkWaypointTrack now fileName gpx.waypoints]
    else emitted
  if withWaypoints.length = 0 then
    Except.error "No tracks, routes, or waypoints found in GPX file"
  else
    Except.ok withWaypoints

/-- An uploaded file as seen by the validators: its name and byte size. -/
structure JSFile where
  name : String
  size : ℕ

/-- The accepted photo formats of `PhotoUploader`. -/
def acceptedFormats : List String := [".jpg", ".jpeg", ".png", ".heic", ".webp"]

/-- JavaScript `name.split('.')` written as a structural recursion over the
character list: splitting on every dot, never returning an empty list. -/
def splitOnDot : List Char → List (List Char)
  | [] => [[]]
  | c :: rest =>
    match splitOnDot rest with
    | [] => [[]]
    | g :: gs => if c = '.' then [] :: g :: gs else (c :: g) :: gs

/-- The extension string computed by `validateFiles`: a dot followed by
the lowercased last `.`-separated component of the file name
(`file.name.split('.').pop().toLowerCase()`). -/
def fileExtension (f : JSFile) : String :=
  "." ++ String.mk (((splitOnDot f.name.data).getLast?.getD []).map Char.toLower)

/-- The pre-processing validation of `PhotoUploader.validateFiles`: files
with an unsupported extension or more than 50 MB are skipped one by one,
the remaining files are kept in order. -/
def validateFiles : List JSFile → List JSFile
  | [] => []
  | f :: rest =>
    if fileExtension f ∉ acceptedFormats then validateFiles rest
    else if 50 * 1024 * 1024 < f.size then validateFiles rest
    else f :: validateFiles rest

/-- The metadata record produced by `extractPhotoMetadata` (camera and
orientation fields are not consumed by the photo hooks). -/
structure PhotoMetadata where
  location : Option (ℝ × ℝ)
  timestamp : Option ℝ

/-- The outcome of the delegated per-file processing inside
`addMultiplePhotos` when it does not throw: extracted metadata, the data
URL, and the thumbnail URL when `createThumbnail` succeeded. -/
structure ProcessOutcome where
  metadata : PhotoMetadata
  dataUrl : String
  thumbnail : Option String

/-- A photo record (interface `Photo`). -/
structure Photo where
  id : String
  name : String
  dataUrl : String
  thumbnailUrl : Option String
  location : Option (ℝ × ℝ)
  timestamp : Option ℝ
  visible : Bool
  size : ℕ

/-- JavaScript `thumbnailUrl || undefined`: the empty string also becomes
`undefined`. -/
def jsOrNone (s : Option String) : Option String :=
  match s with
  | some v => if v = "" then none else some v
  | none => none

/-- The `Photo` built for one successfully processed file inside
`addMultiplePhotos`; `id` is supplied externally (`Date.now()` plus a
random suffix in the source). -/
def mkPhoto (id : String) (f : JSFile) (r : ProcessOutcome) : Photo :=
  { id := id
    name := f.name
    dataUrl := r.dataUrl
    thumbnailUrl := jsOrNone r.thumbnail
    location := r.metadata.location
    timestamp := r.metadata.timestamp
    visible := true
    size := f.size }

/-- The sequential batch loop of `addMultiplePhotos`: the delegated
processing of each file is the oracle `proc` (`none` models a thrown
error, caught per file), `mkId` the id generator; a failing file is
skipped and the loop continues. -/
def addMultiplePhotos (proc : JSFile → Option ProcessOutcome)
    (mkId : JSFile → String) : List JSFile → List Photo
  | [] => []
  | f :: rest =>
    match proc f with
    | some r => mkPhoto (mkId f) f r :: addMultiplePhotos proc mkId rest
    | none => addMultiplePhotos proc mkId rest

/-- A partial style as accepted by `updateTrackStyle`
(`Partial TrackStyle` on the source side): each field optional. -/
structure StylePatch where
  color : Option String
  width : Option ℝ
  opacity : Option ℝ
  lineStyle : Option String

/-- The spread merge `\x7b ...track.style, ...style \x7d`: fields present
in the patch win. -/
noncomputable def mergeStyle (s : TrackStyle) (p : StylePatch) : TrackStyle :=
  { color := p.color.getD s.color
    width := p.width.getD s.width
    opacity := p.opacity.getD s.opacity
    lineStyle := p.lineStyle.getD s.lineStyle }

/-- The `updateTrackStyle` operation of `useTracks`: map over the
collection, merging the patch into the style of every track whose id
matches and leaving all others untouched. -/
noncomputable def updateTrackStyle (tracks : List Track) (trackId : String)
    (patch : StylePatch) : List Track :=
  tracks.map (fun t =>
    if t.id = trackId then { t with style := mergeStyle t.style patch } else t)

lemma havA_symm (lat1 lon1 lat2 lon2 : ℝ) :
    havA lat2 lon2 lat1 lon1 = havA lat1 lon1 lat2 lon2 := by
  unfold havA
  have h1 : (lat1 - lat2) * Real.pi / 180 / 2 =
      -((lat2 - lat1) * Real.pi / 180 / 2) := by ring
  have h2 : (lon1 - lon2) * Real.pi / 180 / 2 =
      -((lon2 - lon1) * Real.pi / 180 / 2) := by ring
  rw [h1, h2, Real.sin_neg, Real.sin_neg]
  ring

lemma atan2_nonneg {y x : ℝ} (hy : 0 ≤ y) (hx : 0 ≤ x) : 0 ≤ atan2 y x := by
  unfold atan2
  split_ifs with h1 h2 h3 h4 h5
  · have h := Real.arctan_strictMono.monotone (div_nonneg hy h1.le)
    rwa [Real.arctan_zero] at h
  · exact absurd h2.1 (not_lt.mpr hx)
  · exact absurd h3 (not_lt.mpr hx)
  · positivity
  · exact absurd h5.2 (not_lt.mpr hy)
  · exact le_refl 0

lemma calculateDistance_nonneg (lat1 lon1 lat2 lon2 : ℝ) :
    0 ≤ calculateDistance lat1 lon1 lat2 lon2 := by
  unfold calculateDistance
  have h := atan2_nonneg (Real.sqrt_nonneg (havA lat1 lon1 lat2 lon2))
    (Real.sqrt_nonneg (1 - havA lat1 lon1 lat2 lon2))
  have h2 : (0:ℝ) ≤ 2 * atan2 (Real.sqrt (havA lat1 lon1 lat2 lon2))
      (Real.sqrt (1 - havA lat1 lon1 lat2 lon2)) := by linarith
  have h3 : (0:ℝ) ≤ 6371000 := by norm_num
  exact mul_nonneg h3 h2

lemma updateMinMax_proj (acc : StatsAcc) (p : TrackPoint) :
    (updateMinMax acc p).totalDistance = acc.totalDistance ∧
    (updateMinMax acc p).elevationGain = acc.elevationGain ∧
    (updateMinMax acc p).elevationLoss = acc.elevationLoss ∧
    (updateMinMax acc p).startTime = acc.startTime ∧
    (updateMinMax acc p).endTime = acc.endTime := by
  unfold updateMinMax
  cases p.ele <;> exact ⟨rfl, rfl, rfl, rfl, rfl⟩

lemma updateTimes_proj (acc : StatsAcc) (p : TrackPoint) :
    (updateTimes acc p).totalDistance = acc.totalDistance ∧
    (updateTimes acc p).elevationGain = acc.elevationGain ∧
    (updateTimes acc p).elevationLoss = acc.elevationLoss ∧
    (updateTimes acc p).minElevation = acc.minElevation ∧
    (updateTimes acc p).maxElevation = acc.maxElevation := by
  unfold updateTimes
  cases p.time <;> exact ⟨rfl, rfl, rfl, rfl, rfl⟩

lemma updatePair_proj (acc : StatsAcc) (q p : TrackPoint) :
    (updatePair acc q p).totalDistance = acc.totalDistance + pairDist q p ∧
    (updatePair acc q p).elevationGain = acc.elevationGain + pairGain q p ∧
    (updatePair acc q p).elevationLoss = acc.elevationLoss + pairLoss q p ∧
    (updatePair acc q p).minElevation = acc.minElevation ∧
    (updatePair acc q p).maxElevation = acc.maxElevation ∧
    (updatePair acc q p).startTime = acc.startTime ∧
    (updatePair acc q p).endTime = acc.endTime := by
  cases hp : p.ele with
  | none => simp [updatePair, pairDist, pairGain, pairLoss, hp]
  | some pe =>
    cases hq : q.ele with
    | none => simp [updatePair, pairDist, pairGain, pairLoss, hp, hq]
    | some qe =>
      by_cases hlt : 0 < pe - qe <;>
        simp [updatePair, pairDist, pairGain, pairLoss, hp, hq, hlt]

lemma stepPoint_some_accum (acc : StatsAcc) (q p : TrackPoint) :
    (stepPoint acc (some q) p).totalDistance = acc.totalDistance + pairDist q p ∧
    (stepPoint acc (some q) p).elevationGain = acc.elevationGain + pairGain q p ∧
    (stepPoint acc (some q) p).elevationLoss = acc.elevationLoss + pairLoss q p := by
  obtain ⟨a1, a2, a3, _, _⟩ := updateMinMax_proj acc p
  obtain ⟨b1, b2, b3, _, _⟩ := updateTimes_proj (updateMinMax acc p) p
  obtain ⟨c1, c2, c3, _, _, _, _⟩ :=
    updatePair_proj (updateTimes (updateMinMax acc p) p) q p
  unfold stepPoint
  exact ⟨by rw [c1, b1, a1], by rw [c2, b2, a2], by rw [c3, b3, a3]⟩

lemma stepPoint_none_accum (acc : StatsAcc) (p : TrackPoint) :
    (stepPoint acc none p).totalDistance = acc.totalDistance ∧
    (stepPoint acc none p).elevationGain = acc.elevationGain ∧
    (stepPoint acc none p).elevationLoss = acc.elevationLoss := by
  obtain ⟨a1, a2, a3, _, _⟩ := updateMinMax_proj acc p
  obtain ⟨b1, b2, b3, _, _⟩ := updateTimes_proj (updateMinMax acc p) p
  unfold stepPoint
  exact ⟨by rw [b1, a1], by rw [b2, a2], by rw [b3, a3]⟩

lemma processPoints_some_accum (pts : List TrackPoint) :
    ∀ (q : TrackPoint) (acc : StatsAcc),
      (processPoints acc (some q) pts).totalDistance =
          acc.totalDistance + chainSum pairDist q pts ∧
      (processPoints acc (some q) pts).elevationGain =
          acc.elevationGain + chainSum pairGain q pts ∧
      (processPoints acc (some q) pts).elevationLoss =
          acc.elevationLoss + chainSum pairLoss q pts := by
  induction pts with
  | nil => intro q acc; simp [processPoints, chainSum]
  | cons p rest ih =>
    intro q acc
    obtain ⟨d1, g1, l1⟩ := ih p (stepPoint acc (some q) p)
    obtain ⟨d2, g2, l2⟩ := stepPoint_some_accum acc q p
    refine ⟨?_, ?_, ?_⟩ <;>
      simp only [processPoints, chainSum, d1, g1, l1, d2, g2, l2] <;> ring

lemma zipPairSum (f : TrackPoint → TrackPoint → ℝ) (rest : List TrackPoint) :
    ∀ p : TrackPoint,
      (((p :: rest).zip rest).map (fun qp => f qp.1 qp.2)).sum =
        chainSum f p rest := by
  induction rest with
  | nil => intro p; simp [chainSum]
  | cons r rest2 ih =>
    intro p
    simp only [List.zip_cons_cons, List.map_cons, List.sum_cons, chainSum]
    rw [ih r]

lemma specSegmentDistance_cons (p : TrackPoint) (rest : List TrackPoint) :
    specSegmentDistance (p :: rest) = chainSum pairDist p rest := by
  unfold specSegmentDistance
  simpa using zipPairSum pairDist rest p

lemma specSegmentGain_cons (p : TrackPoint) (rest : List TrackPoint) :
    specSegmentGain (p :: rest) = chainSum pairGain p rest := by
  unfold specSegmentGain
  simpa using zipPairSum pairGain rest p

lemma specSegmentLoss_cons (p : TrackPoint) (rest : List TrackPoint) :
    specSegmentLoss (p :: rest) = chainSum pairLoss p rest := by
  unfold specSegmentLoss
  simpa using zipPairSum pairLoss rest p

lemma processPoints_none_accum (pts : List TrackPoint) (acc : StatsAcc) :
    (processPoints acc none pts).totalDistance =
        acc.totalDistance + specSegmentDistance pts ∧
    (processPoints acc none pts).elevationGain =
        acc.elevationGain + specSegmentGain pts ∧
    (processPoints acc none pts).elevationLoss =
        acc.elevationLoss + specSegmentLoss pts := by
  cases pts with
  | nil =>
    simp [processPoints, specSegmentDistance, specSegmentGain, specSegmentLoss]
  | cons p rest =>
    obtain ⟨d1, g1, l1⟩ := processPoints_some_accum rest p (stepPoint acc none p)
    obtain ⟨d0, g0, l0⟩ := stepPoint_none_accum acc p
    rw [specSegmentDistance_cons, specSegmentGain_cons, specSegmentLoss_cons]
    refine ⟨?_, ?_, ?_⟩ <;>
      simp only [processPoints, d1, g1, l1, d0, g0, l0]

lemma foldl_stats_accum (segs : List TrackSegment) :
    ∀ acc : StatsAcc,
      (segs.foldl (fun a seg => processPoints a none seg.points) acc).totalDistance
          = acc.totalDistance + specTotalDistance segs ∧
      (segs.foldl (fun a seg => processPoints a none seg.points) acc).elevationGain
          = acc.elevationGain + specElevationGain segs ∧
      (segs.foldl (fun a seg => processPoints a none seg.points) acc).elevationLoss
          = acc.elevationLoss + specElevationLoss segs := by
  induction segs with
  | nil =>
    intro acc
    simp [specTotalDistance, specElevationGain, specElevationLoss]
  | cons s rest ih =>
    intro acc
    obtain ⟨d1, g1, l1⟩ := ih (processPoints acc none s.points)
    obtain ⟨d0, g0, l0⟩ := processPoints_none_accum s.points acc
    refine ⟨?_, ?_, ?_⟩ <;>
      simp only [List.foldl_cons, d1, g1, l1, d0, g0, l0, specTotalDistance,
        specElevationGain, specElevationLoss, List.map_cons, List.sum_cons] <;>
      ring

lemma calcStats_distance (segs : List TrackSegment) :
    (calculateTrackStats segs).distance = specTotalDistance segs := by
  have h := (foldl_stats_accum segs initAcc).1
  unfold calculateTrackStats
  dsimp only
  rw [h]
  simp [initAcc]

lemma calcStats_gain (segs : List TrackSegment) :
    (calculateTrackStats segs).elevationGain = specElevationGain segs := by
  have h := (foldl_stats_accum segs initAcc).2.1
  unfold calculateTrackStats
  dsimp only
  rw [h]
  simp [initAcc]

lemma calcStats_loss (segs : List TrackSegment) :
    (calculateTrackStats segs).elevationLoss = specElevationLoss segs := by
  have h := (foldl_stats_accum segs initAcc).2.2
  unfold calculateTrackStats
  dsimp only
  rw [h]
  simp [initAcc]

lemma updateMinMax_sentinel (acc : StatsAcc) (p : TrackPoint)
    (h : sentinelLE acc.minElevation acc.maxElevation) :
    sentinelLE (updateMinMax acc p).minElevation (updateMinMax acc p).maxElevation := by
  unfold updateMinMax
  cases hp : p.ele with
  | none => exact h
  | some e =>
    cases hm : acc.minElevation with
    | none =>
      cases hM : acc.maxElevation with
      | none => simp [sentinelLE]
      | some M => rw [hm, hM] at h; exact h.elim
    | some m =>
      cases hM : acc.maxElevation with
      | none => rw [hm, hM] at h; exact h.elim
      | some M =>
        rw [hm, hM] at h
        simp only [sentinelLE] at h ⊢
        exact le_trans (le_trans (min_le_left m e) h) (le_max_left M e)

lemma updateTimes_sentinel (acc : StatsAcc) (p : TrackPoint)
    (h : sentinelLE acc.startTime acc.endTime) :
    sentinelLE (updateTimes acc p).startTime (updateTimes acc p).endTime := by
  unfold updateTimes
  cases hp : p.time with
  | none => exact h
  | some t =>
    cases hs : acc.startTime with
    | none =>
      cases he : acc.endTime with
      | none => simp [sentinelLE]
      | some e => rw [hs, he] at h; exact h.elim
    | some s =>
      cases he : acc.endTime with
      | none => rw [hs, he] at h; exact h.elim
      | some e =>
        rw [hs, he] at h
        simp only [sentinelLE] at h ⊢
        split_ifs <;> linarith

lemma stepPoint_minmax_eq (acc : StatsAcc) (prev : Option TrackPoint)
    (p : TrackPoint) :
    (stepPoint acc prev p).minElevation = (updateMinMax acc p).minElevation ∧
    (stepPoint acc prev p).maxElevation = (updateMinMax acc p).maxElevation := by
  unfold stepPoint
  cases prev with
  | none =>
    exact ⟨(updateTimes_proj _ p).2.2.2.1, (updateTimes_proj _ p).2.2.2.2⟩
  | some q =>
    obtain ⟨_, _, _, c4, c5, _, _⟩ :=
      updatePair_proj (updateTimes (updateMinMax acc p) p) q p
    exact ⟨c4.trans (updateTimes_proj _ p).2.2.2.1,
      c5.trans (updateTimes_proj _ p).2.2.2.2⟩

lemma stepPoint_times_eq (acc : StatsAcc) (prev : Option TrackPoint)
    (p : TrackPoint) :
    (stepPoint acc prev p).startTime =
        (updateTimes (updateMinMax acc p) p).startTime ∧
    (stepPoint acc prev p).endTime =
        (updateTimes (updateMinMax acc p) p).endTime := by
  unfold stepPoint
  cases prev with
  | none => exact ⟨rfl, rfl⟩
  | some q =>
    obtain ⟨_, _, _, _, _, c6, c7⟩ :=
      updatePair_proj (updateTimes (updateMinMax acc p) p) q p
    exact ⟨c6, c7⟩

lemma stepPoint_sentinel_minmax (acc : StatsAcc) (prev : Option TrackPoint)
    (p : TrackPoint) (h : sentinelLE acc.minElevation acc.maxElevation) :
    sentinelLE (stepPoint acc prev p).minElevation
      (stepPoint acc prev p).maxElevation := by
  obtain ⟨h1, h2⟩ := stepPoint_minmax_eq acc prev p
  rw [h1, h2]
  exact updateMinMax_sentinel acc p h

lemma stepPoint_sentinel_times (acc : StatsAcc) (prev : Option TrackPoint)
    (p : TrackPoint) (h : sentinelLE acc.startTime acc.endTime) :
    sentinelLE (stepPoint acc prev p).startTime
      (stepPoint acc prev p).endTime := by
  obtain ⟨h1, h2⟩ := stepPoint_times_eq acc prev p
  rw [h1, h2]
  have hmm : sentinelLE (updateMinMax acc p).startTime
      (updateMinMax acc p).endTime := by
    rw [(updateMinMax_proj acc p).2.2.2.1, (updateMinMax_proj acc p).2.2.2.2]
    exact h
  exact updateTimes_sentinel (updateMinMax acc p) p hmm

lemma processPoints_sentinels (pts : List TrackPoint) :
    ∀ (prev : Option TrackPoint) (acc : StatsAcc),
      (sentinelLE acc.minElevation acc.maxElevation →
        sentinelLE (processPoints acc prev pts).minElevation
          (processPoints acc prev pts).maxElevation) ∧
      (sentinelLE acc.startTime acc.endTime →
        sentinelLE (processPoints acc prev pts).startTime
          (processPoints acc prev pts).endTime) := by
  induction pts with
  | nil => intro prev acc; exact ⟨fun h => h, fun h => h⟩
  | cons p rest ih =>
    intro prev acc
    obtain ⟨ih1, ih2⟩ := ih (some p) (stepPoint acc prev p)
    exact ⟨fun h => by
        simpa [processPoints] using ih1 (stepPoint_sentinel_minmax acc prev p h),
      fun h => by
        simpa [processPoints] using ih2 (stepPoint_sentinel_times acc prev p h)⟩

lemma foldl_sentinels (segs : List TrackSegment) :
    ∀ acc : StatsAcc,
      (sentinelLE acc.minElevation acc.maxElevation →
        sentinelLE
          (segs.foldl (fun a seg => processPoints a none seg.points) acc).minElevation
          (segs.foldl (fun a seg => processPoints a none seg.points) acc).maxElevation) ∧
      (sentinelLE acc.startTime acc.endTime →
        sentinelLE
          (segs.foldl (fun a seg => processPoints a none seg.points) acc).startTime
          (segs.foldl (fun a seg => processPoints a none seg.points) acc).endTime) := by
  induction segs with
  | nil => intro acc; exact ⟨fun h => h, fun h => h⟩
  | cons s rest ih =>
    intro acc
    obtain ⟨ih1, ih2⟩ := ih (processPoints acc none s.points)
    obtain ⟨p1, p2⟩ := processPoints_sentinels s.points none acc
    exact ⟨fun h => by simpa [List.foldl_cons] using ih1 (p1 h),
      fun h => by simpa [List.foldl_cons] using ih2 (p2 h)⟩

lemma stepPoint_minmax_of_none (acc : StatsAcc) (prev : Option TrackPoint)
    (p : TrackPoint) (h : p.ele = none) :
    (stepPoint acc prev p).minElevation = acc.minElevation ∧
    (stepPoint acc prev p).maxElevation = acc.maxElevation := by
  obtain ⟨h1, h2⟩ := stepPoint_minmax_eq acc prev p
  unfold updateMinMax at h1 h2
  rw [h] at h1 h2
  exact ⟨h1, h2⟩

lemma stepPoint_times_of_none (acc : StatsAcc) (prev : Option TrackPoint)
    (p : TrackPoint) (h : p.time = none) :
    (stepPoint acc prev p).startTime = acc.startTime ∧
    (stepPoint acc prev p).endTime = acc.endTime := by
  obtain ⟨h1, h2⟩ := stepPoint_times_eq acc prev p
  unfold updateTimes at h1 h2
  rw [h] at h1 h2
  rw [h1, h2]
  exact ⟨(updateMinMax_proj acc p).2.2.2.1, (updateMinMax_proj acc p).2.2.2.2⟩

lemma processPoints_minmax_of_none (pts : List TrackPoint)
    (h : ∀ p ∈ pts, p.ele = none) :
    ∀ (prev : Option TrackPoint) (acc : StatsAcc),
      (processPoints acc prev pts).minElevation = acc.minElevation ∧
      (processPoints acc prev pts).maxElevation = acc.maxElevation := by
  induction pts with
  | nil => intro prev acc; exact ⟨rfl, rfl⟩
  | cons p rest ih =>
    intro prev acc
    obtain ⟨i1, i2⟩ := ih (fun x hx => h x (List.mem_cons_of_mem p hx))
      (some p) (stepPoint acc prev p)
    obtain ⟨s1, s2⟩ :=
      stepPoint_minmax_of_none acc prev p (h p (List.mem_cons_self p rest))
    exact ⟨by simpa [processPoints, s1] using i1,
      by simpa [processPoints, s2] using i2⟩

lemma processPoints_times_of_none (pts : List TrackPoint)
    (h : ∀ p ∈ pts, p.time = none) :
    ∀ (prev : Option TrackPoint) (acc : StatsAcc),
      (processPoints acc prev pts).startTime = acc.startTime ∧
      (processPoints acc prev pts).endTime = acc.endTime := by
  induction pts with
  | nil => intro prev acc; exact ⟨rfl, rfl⟩
  | cons p rest ih =>
    intro prev acc
    obtain ⟨i1, i2⟩ := ih (fun x hx => h x (List.mem_cons_of_mem p hx))
      (some p) (stepPoint acc prev p)
    obtain ⟨s1, s2⟩ :=
      stepPoint_times_of_none acc prev p (h p (List.mem_cons_self p rest))
    exact ⟨by simpa [processPoints, s1] using i1,
      by simpa [processPoints, s2] using i2⟩

lemma foldl_minmax_of_none (segs : List TrackSegment)
    (h : ∀ s ∈ segs, ∀ p ∈ s.points, p.ele = none) :
    ∀ acc : StatsAcc,
      (segs.foldl (fun a seg => processPoints a none seg.points) acc).minElevation
          = acc.minElevation ∧
      (segs.foldl (fun a seg => processPoints a none seg.points) acc).maxElevation
          = acc.maxElevation := by
  induction segs with
  | nil => intro acc; exact ⟨rfl, rfl⟩
  | cons s rest ih =>
    intro acc
    obtain ⟨i1, i2⟩ := ih (fun x hx => h x (List.mem_cons_of_mem s hx))
      (processPoints acc none s.points)
    obtain ⟨p1, p2⟩ := processPoints_minmax_of_none s.points
      (h s (List.mem_cons_self s rest)) none acc
    exact ⟨by simpa [List.foldl_cons, p1] using i1,
      by simpa [List.foldl_cons, p2] using i2⟩

lemma foldl_times_of_none (segs : List TrackSegment)
    (h : ∀ s ∈ segs, ∀ p ∈ s.points, p.time = none) :
    ∀ acc : StatsAcc,
      (segs.foldl (fun a seg => processPoints a none seg.points) acc).startTime
          = acc.startTime ∧
      (segs.foldl (fun a seg => processPoints a none seg.points) acc).endTime
          = acc.endTime := by
  induction segs with
  | nil => intro acc; exact ⟨rfl, rfl⟩
  | cons s rest ih =>
    intro acc
    obtain ⟨i1, i2⟩ := ih (fun x hx => h x (List.mem_cons_of_mem s hx))
      (processPoints acc none s.points)
    obtain ⟨p1, p2⟩ := processPoints_times_of_none s.points
      (h s (List.mem_cons_self s rest)) none acc
    exact ⟨by simpa [List.foldl_cons, p1] using i1,
      by simpa [List.foldl_cons, p2] using i2⟩

lemma pairDist_nonneg (q p : TrackPoint) : 0 ≤ pairDist q p :=
  calculateDistance_nonneg q.lat q.lon p.lat p.lon

lemma pairGain_nonneg (q p : TrackPoint) : 0 ≤ pairGain q p := by
  unfold pairGain
  cases q.ele <;> cases p.ele <;> simp
  split_ifs <;> linarith

lemma pairLoss_nonneg (q p : TrackPoint) : 0 ≤ pairLoss q p := by
  unfold pairLoss
  cases q.ele <;> cases p.ele <;> simp
  split_ifs
  · exact le_refl 0
  · exact abs_nonneg _

lemma zipSum_nonneg (f : TrackPoint → TrackPoint → ℝ)
    (hf : ∀ q p, 0 ≤ f q p) (pts : List TrackPoint) :
    0 ≤ ((pts.zip pts.tail).map (fun qp => f qp.1 qp.2)).sum := by
  apply List.sum_nonneg
  intro x hx
  obtain ⟨qp, _, rfl⟩ := List.mem_map.mp hx
  exact hf qp.1 qp.2

lemma segSum_nonneg (g : TrackSegment → ℝ) (hg : ∀ s, 0 ≤ g s)
    (segs : List TrackSegment) : 0 ≤ (segs.map g).sum := by
  apply List.sum_nonneg
  intro x hx
  obtain ⟨s, _, rfl⟩ := List.mem_map.mp hx
  exact hg s

/-- C7: the geodesic distance function is symmetric in its two coordinate
pairs: `dist(A,B) = dist(B,A)` for all real inputs. -/
theorem calculateDistance_symm (lat1 lon1 lat2 lon2 : ℝ) :
    calculateDistance lat1 lon1 lat2 lon2 =
      calculateDistance lat2 lon2 lat1 lon1 := by
  unfold calculateDistance
  rw [havA_symm lat1 lon1 lat2 lon2]

lemma zipShort (f : TrackPoint → TrackPoint → ℝ) (pts : List TrackPoint)
    (h : pts.length < 2) :
    ((pts.zip pts.tail).map (fun qp => f qp.1 qp.2)).sum = 0 := by
  cases pts with
  | nil => simp
  | cons p rest =>
    cases rest with
    | nil => simp
    | cons q r2 =>
      exfalso
      simp only [List.length_cons] at h
      omega

/-- C1 (counterexample): a single-segment track whose only point carries
elevation `100` satisfies the claim's first disjunct (every segment has
fewer than two points), yet the aggregator returns `minElevation = 100`,
not `0` as the claim asserts. -/
theorem claim1_minElevation_counterexample :
    (([⟨[⟨0, 0, some 100, none⟩]⟩] : List TrackSegment).all
        (fun s => s.points.length < 2)) = true ∧
    (calculateTrackStats [⟨[⟨0, 0, some 100, none⟩]⟩]).minElevation = 100 ∧
    (calculateTrackStats [⟨[⟨0, 0, some 100, none⟩]⟩]).minElevation ≠ 0 := by
  refine ⟨by decide, ?_, ?_⟩ <;>
    simp [calculateTrackStats, processPoints, stepPoint, updateTimes,
      updateMinMax, initAcc]

/-- C1 (amended): when every segment has fewer than two points AND no
point carries elevation or time data, the aggregator returns
`distance = 0`, `elevationGain = elevationLoss = 0`,
`minElevation = maxElevation = 0` and an undefined duration; the model is
a total function, so no division error or undefined result can occur. -/
theorem calculateTrackStats_degenerate (segs : List TrackSegment)
    (h1 : ∀ s ∈ segs, s.points.length < 2)
    (h2 : ∀ s ∈ segs, ∀ p ∈ s.points, p.ele = none)
    (h3 : ∀ s ∈ segs, ∀ p ∈ s.points, p.time = none) :
    calculateTrackStats segs = ⟨0, 0, 0, 0, 0, none⟩ := by
  obtain ⟨hm1, hm2⟩ := foldl_minmax_of_none segs h2 initAcc
  obtain ⟨ht1, ht2⟩ := foldl_times_of_none segs h3 initAcc
  obtain ⟨hd, hg, hl⟩ := foldl_stats_accum segs initAcc
  have h4 : specTotalDistance segs = 0 := by
    apply List.sum_eq_zero
    intro x hx
    obtain ⟨s, hs, rfl⟩ := List.mem_map.mp hx
    exact zipShort pairDist s.points (h1 s hs)
  have h5 : specElevationGain segs = 0 := by
    apply List.sum_eq_zero
    intro x hx
    obtain ⟨s, hs, rfl⟩ := List.mem_map.mp hx
    exact zipShort pairGain s.points (h1 s hs)
  have h6 : specElevationLoss segs = 0 := by
    apply List.sum_eq_zero
    intro x hx
    obtain ⟨s, hs, rfl⟩ := List.mem_map.mp hx
    exact zipShort pairLoss s.points (h1 s hs)
  unfold calculateTrackStats
  dsimp only
  rw [hd, hg, hl, hm1, hm2, ht1, ht2, h4, h5, h6]
  simp [initAcc]

/-- Witness for the amended C1: a concrete one-point, no-elevation,
no-time track evaluates to the all-zero statistics record. -/
theorem calculateTrackStats_degenerate_witness :
    calculateTrackStats [⟨[⟨1, 2, none, none⟩]⟩] = ⟨0, 0, 0, 0, 0, none⟩ :=
  calculateTrackStats_degenerate [⟨[⟨1, 2, none, none⟩]⟩]
    (by simp) (by simp) (by simp)

/-- C2: elevation gain and loss computed by the aggregator are exactly the
spec-side sums over adjacent same-segment pairs that both carry an
elevation (positive delta to gain, absolute value of a non-positive delta
to loss); in particular elevations `100, 150, 120` give gain `50` and
loss `30`. -/
theorem elevationGainLoss_spec :
    (∀ segs : List TrackSegment,
      (calculateTrackStats segs).elevationGain = specElevationGain segs ∧
      (calculateTrackStats segs).elevationLoss = specElevationLoss segs) ∧
    (calculateTrackStats
        [⟨[⟨0, 0, some 100, none⟩, ⟨0, 0, some 150, none⟩,
          ⟨0, 0, some 120, none⟩]⟩]).elevationGain = 50 ∧
    (calculateTrackStats
        [⟨[⟨0, 0, some 100, none⟩, ⟨0, 0, some 150, none⟩,
          ⟨0, 0, some 120, none⟩]⟩]).elevationLoss = 30 := by
  refine ⟨fun segs => ⟨calcStats_gain segs, calcStats_loss segs⟩, ?_, ?_⟩
  · rw [calcStats_gain]
    simp [specElevationGain, specSegmentGain, pairGain]
    norm_num
  · rw [calcStats_loss]
    simp [specElevationLoss, specSegmentLoss, pairLoss]
    norm_num

/-- C6: the total distance computed by the aggregator is the sum, over
each segment independently, of the haversine distances between
consecutive points of that segment; segment boundaries contribute
nothing. -/
theorem totalDistance_spec (segs : List TrackSegment) :
    (calculateTrackStats segs).distance = specTotalDistance segs :=
  calcStats_distance segs

/-- C9: every statistics record produced by the aggregator has nonnegative
distance, elevation gain and elevation loss, `minElevation ≤ maxElevation`,
and a nonnegative duration whenever the duration is defined. -/
theorem trackStats_invariants (segs : List TrackSegment) :
    0 ≤ (calculateTrackStats segs).distance ∧
    0 ≤ (calculateTrackStats segs).elevationGain ∧
    0 ≤ (calculateTrackStats segs).elevationLoss ∧
    (calculateTrackStats segs).minElevation ≤
      (calculateTrackStats segs).maxElevation ∧
    (∀ d : ℝ, (calculateTrackStats segs).duration = some d → 0 ≤ d) := by
  refine ⟨?_, ?_, ?_, ?_, ?_⟩
  · rw [calcStats_distance]
    exact segSum_nonneg _
      (fun s => zipSum_nonneg pairDist pairDist_nonneg s.points) segs
  · rw [calcStats_gain]
    exact segSum_nonneg _
      (fun s => zipSum_nonneg pairGain pairGain_nonneg s.points) segs
  · rw [calcStats_loss]
    exact segSum_nonneg _
      (fun s => zipSum_nonneg pairLoss pairLoss_nonneg s.points) segs
  · have hs := (foldl_sentinels segs initAcc).1 trivial
    unfold calculateTrackStats
    dsimp only
    cases hm : (segs.foldl (fun a seg => processPoints a none seg.points)
        initAcc).minElevation with
    | none =>
      cases hM : (segs.foldl (fun a seg => processPoints a none seg.points)
          initAcc).maxElevation with
      | none => simp
      | some M => rw [hm, hM] at hs; exact hs.elim
    | some m =>
      cases hM : (segs.foldl (fun a seg => processPoints a none seg.points)
          initAcc).maxElevation with
      | none => rw [hm, hM] at hs; exact hs.elim
      | some M =>
        rw [hm, hM] at hs
        simpa using hs
  · have hs := (foldl_sentinels segs initAcc).2 trivial
    unfold calculateTrackStats
    dsimp only
    intro d hd
    cases hstart : (segs.foldl (fun a seg => processPoints a none seg.points)
        initAcc).startTime with
    | none =>
      rw [hstart] at hd
      simp at hd
    | some s =>
      cases hend : (segs.foldl (fun a seg => processPoints a none seg.points)
          initAcc).endTime with
      | none =>
        rw [hstart, hend] at hd
        simp at hd
      | some e =>
        rw [hstart, hend] at hs hd
        simp only [sentinelLE] at hs
        simp only [Option.some.injEq] at hd
        rw [← hd]
        have : (0:ℝ) ≤ e - s := by linarith
        positivity

/-- Witness for C9 at a concrete two-point timed track: the defined
duration is nonnegative. -/
theorem trackStats_invariants_witness :
    0 ≤ (calculateTrackStats
        [⟨[⟨0, 0, none, some 0⟩, ⟨0, 0, none, some 5000⟩]⟩]).distance ∧
    (0:ℝ) ≤ 5 := by
  constructor
  · exact (trackStats_invariants
      [⟨[⟨0, 0, none, some 0⟩, ⟨0, 0, none, some 5000⟩]⟩]).1
  · exact (trackStats_invariants
      [⟨[⟨0, 0, none, some 0⟩, ⟨0, 0, none, some 5000⟩]⟩]).2.2.2.2 5 (by
        simp [calculateTrackStats, processPoints, stepPoint, updateTimes,
          updateMinMax, updatePair, initAcc]
        norm_num)

lemma mapWithIndex_length {α β : Type} (f : ℕ → α → β) :
    ∀ (i : ℕ) (l : List α), (mapWithIndex f i l).length = l.length := by
  intro i l
  induction l generalizing i with
  | nil => rfl
  | cons a rest ih => simp [mapWithIndex, ih]

lemma map_mapWithIndex {α β γ : Type} (g : β → γ) (f : ℕ → α → β) :
    ∀ (i : ℕ) (l : List α),
      (mapWithIndex f i l).map g = mapWithIndex (fun j a => g (f j a)) i l := by
  intro i l
  induction l generalizing i with
  | nil => rfl
  | cons a rest ih => simp [mapWithIndex, ih]

/-- C4: a parsed document with no tracks, no routes and no waypoints makes
the normalizer fail with the `NoGeometryFound` error (the thrown message
`No tracks, routes, or waypoints found in GPX file`); the `Except.error`
result carries no partial track list. -/
theorem parseGPX_noGeometryFound (gpx : ParsedGPX) (fn : Option String)
    (now : ℕ) (h1 : gpx.tracks = []) (h2 : gpx.routes = [])
    (h3 : gpx.waypoints = []) :
    parseGPXString gpx fn now =
      Except.error "No tracks, routes, or waypoints found in GPX file" := by
  unfold parseGPXString
  rw [h1, h2, h3]
  simp [mapWithIndex]

/-- Witness for C4 at the empty document. -/
theorem parseGPX_noGeometryFound_witness :
    parseGPXString ⟨[], [], []⟩ none 0 =
      Except.error "No tracks, routes, or waypoints found in GPX file" :=
  parseGPX_noGeometryFound ⟨[], [], []⟩ none 0 rfl rfl rfl

/-- C3 (counterexample): a document with one route, one waypoint and no
tracks — so step 1 emitted nothing, the filename is available, and
waypoints exist — yields only the route track named `R`; no synthetic
waypoint track (which the claim requires independently of routes) is
emitted. -/
theorem claim3_counterexample :
    Except.map (fun l => l.map Track.name)
        (parseGPXString ⟨[], [⟨some "R", []⟩], [⟨1, 2, none, none⟩]⟩
          (some "f.gpx") 0) = Except.ok ["R"] ∧
    ("R" : String) ≠ "f.gpx" ∧ ("R" : String) ≠ "Waypoints" := by
  refine ⟨?_, by decide, by decide⟩
  simp [parseGPXString, mapWithIndex, mkRouteTrack, jsOr, Except.map]

/-- C3 (amended): when the document has waypoints and neither step 1
(tracks) nor step 2 (routes) emitted anything, the normalizer emits
exactly one synthetic track holding all waypoints as a single segment,
named after the filename when available (and nonempty) else `Waypoints`. -/
theorem parseGPX_waypoints_only (gpx : ParsedGPX) (fn : Option String)
    (now : ℕ) (h1 : gpx.tracks = []) (h2 : gpx.routes = [])
    (h3 : gpx.waypoints ≠ []) :
    parseGPXString gpx fn now = Except.ok
      [{ id := "waypoints-" ++ toString now
         name := jsOr fn "Waypoints"
         segments := [⟨gpx.waypoints.map waypointToTrackPoint⟩]
         style := defaultStyle
         visible := true
         stats := some (calculateTrackStats
           [⟨gpx.waypoints.map waypointToTrackPoint⟩]) }] := by
  unfold parseGPXString
  rw [h1, h2]
  have hw : 0 < gpx.waypoints.length := List.length_pos.mpr h3
  simp [mapWithIndex, hw, mkWaypointTrack]

/-- Witness for the amended C3 at a one-waypoint document without
filename. -/
theorem parseGPX_waypoints_only_witness :
    parseGPXString ⟨[], [], [⟨1, 2, none, none⟩]⟩ none 0 = Except.ok
      [{ id := "waypoints-0"
         name := "Waypoints"
         segments := [⟨[⟨1, 2, none, none⟩]⟩]
         style := defaultStyle
         visible := true
         stats := some (calculateTrackStats [⟨[⟨1, 2, none, none⟩]⟩]) }] := by
  have h := parseGPX_waypoints_only ⟨[], [], [⟨1, 2, none, none⟩]⟩ none 0
    rfl rfl (by simp)
  simpa [jsOr, waypointToTrackPoint] using h

/-- C5 (counterexample): a route without a source name in a document with
an available filename is labelled `Route 1` — the filename fallback of the
claim is not applied to routes. -/
theorem claim5_counterexample :
    Except.map (fun l => l.map Track.name)
        (parseGPXString ⟨[], [⟨none, []⟩], []⟩ (some "f.gpx") 0) =
      Except.ok ["Route 1"] ∧
    ("Route 1" : String) ≠ "f.gpx" := by
  refine ⟨?_, by decide⟩
  simp [parseGPXString, mapWithIndex, mkRouteTrack, jsOr, Except.map]
  decide

/-- C5 (amended): the names of the emitted tracks are — for source tracks
the source name (when nonempty), else the filename (when available and
nonempty), else `Track N`; for routes the source name (when nonempty),
else `Route N`, the filename never being consulted; for the synthetic
waypoint track the filename (when available and nonempty), else
`Waypoints`. -/
theorem parseGPX_names (gpx : ParsedGPX) (fn : Option String) (now : ℕ)
    (l : List Track) (h : parseGPXString gpx fn now = Except.ok l) :
    l.map Track.name =
      mapWithIndex (fun i t =>
        jsOr t.name (jsOr fn ("Track " ++ toString (i + 1)))) 0 gpx.tracks ++
      mapWithIndex (fun i r =>
        jsOr r.name ("Route " ++ toString (i + 1))) 0 gpx.routes ++
      (if 0 < gpx.waypoints.length ∧ gpx.tracks.length = 0 ∧ gpx.routes.length = 0
        then [jsOr fn "Waypoints"] else []) := by
  unfold parseGPXString at h
  dsimp only at h
  set emitted := mapWithIndex (fun i t => mkSrcTrack now fn i t) 0 gpx.tracks ++
    mapWithIndex (fun i r => mkRouteTrack now i r) 0 gpx.routes with hemit
  have hlen : emitted.length = gpx.tracks.length + gpx.routes.length := by
    rw [hemit, List.length_append, mapWithIndex_length, mapWithIndex_length]
  have hcond : (0 < gpx.waypoints.length ∧ emitted.length = 0) ↔
      (0 < gpx.waypoints.length ∧ gpx.tracks.length = 0 ∧
        gpx.routes.length = 0) := by
    rw [hlen]
    omega
  by_cases hc : 0 < gpx.waypoints.length ∧ emitted.length = 0
  · rw [if_pos hc] at h
    have hne : (emitted ++ [mkWaypointTrack now fn gpx.waypoints]).length ≠ 0 := by
      simp
    rw [if_neg hne] at h
    have hl : emitted ++ [mkWaypointTrack now fn gpx.waypoints] = l := by
      simpa using h
    rw [← hl, if_pos (hcond.mp hc), hemit]
    simp only [List.map_append, map_mapWithIndex, List.map_cons, List.map_nil]
    simp [mkSrcTrack, mkRouteTrack, mkWaypointTrack]
  · rw [if_neg hc] at h
    by_cases hz : emitted.length = 0
    · rw [if_pos hz] at h
      cases h
    · rw [if_neg hz] at h
      have hl : emitted = l := by
        simpa using h
      have hcond2 : ¬(0 < gpx.waypoints.length ∧ gpx.tracks.length = 0 ∧
          gpx.routes.length = 0) := fun hx => hc (hcond.mpr hx)
      rw [← hl, if_neg hcond2, hemit]
      simp only [List.map_append, map_mapWithIndex, List.append_nil]
      simp [mkSrcTrack, mkRouteTrack]

/-- Witness for the amended C5: a document with one named track resolves
that track's name to the source name. -/
theorem parseGPX_names_witness :
    Except.map (fun l => l.map Track.name)
        (parseGPXString ⟨[⟨some "A", []⟩], [], []⟩ none 0) =
      Except.ok ["A"] := by
  have hok : parseGPXString ⟨[⟨some "A", []⟩], [], []⟩ none 0 =
      Except.ok [mkSrcTrack 0 none 0 ⟨some "A", []⟩] := by
    simp [parseGPXString, mapWithIndex]
  have h := parseGPX_names ⟨[⟨some "A", []⟩], [], []⟩ none 0
    [mkSrcTrack 0 none 0 ⟨some "A", []⟩] hok
  rw [hok]
  simp only [Except.map]
  rw [h]
  simp [mapWithIndex, jsOr]

/-- C8: the photo batch never aborts — validation drops unsupported or
oversized files one by one, the processing loop skips any file whose
delegated processing fails and yields exactly one `Photo` per succeeded
file, and the concrete batch `a.jpg`, `b.xyz`, `c.png` (all processable)
yields exactly two photo records. -/
theorem photoBatch_partial_success :
    (∀ (proc : JSFile → Option ProcessOutcome) (mkId : JSFile → String)
        (files : List JSFile),
      addMultiplePhotos proc mkId files =
        files.filterMap (fun f => (proc f).map (fun r => mkPhoto (mkId f) f r))) ∧
    (∀ files : List JSFile,
      validateFiles files = files.filter (fun f =>
        decide (fileExtension f ∈ acceptedFormats) &&
        !decide (50 * 1024 * 1024 < f.size))) ∧
    validateFiles [⟨"a.jpg", 100⟩, ⟨"b.xyz", 100⟩, ⟨"c.png", 100⟩] =
      [⟨"a.jpg", 100⟩, ⟨"c.png", 100⟩] ∧
    (addMultiplePhotos (fun _ => some ⟨⟨none, none⟩, "data", none⟩)
        (fun f => f.name)
        (validateFiles [⟨"a.jpg", 100⟩, ⟨"b.xyz", 100⟩, ⟨"c.png", 100⟩])).length
      = 2 := by
  refine ⟨?_, ?_, ?_, ?_⟩
  · intro proc mkId files
    induction files with
    | nil => rfl
    | cons f rest ih =>
      cases hp : proc f <;>
        simp [addMultiplePhotos, List.filterMap_cons, hp, ih]
  · intro files
    induction files with
    | nil => rfl
    | cons f rest ih =>
      by_cases h1 : fileExtension f ∈ acceptedFormats
      · by_cases h2 : 50 * 1024 * 1024 < f.size
        · simp [validateFiles, h1, h2, List.filter_cons, ih]
        · simp [validateFiles, h1, h2, List.filter_cons, ih]
      · simp [validateFiles, h1, List.filter_cons, ih]
  · rfl
  · rfl

/-- C10: updating a track style rewrites only the `style` field of the
tracks whose id matches (merging the patch over the old style) and leaves
every other track — and, when no id matches, the whole collection —
unchanged. -/
theorem updateTrackStyle_frame (tracks : List Track) (trackId : String)
    (patch : StylePatch) :
    List.Forall₂ (fun t u =>
      (t.id ≠ trackId → u = t) ∧
      (t.id = trackId → u.id = t.id ∧ u.name = t.name ∧
        u.segments = t.segments ∧ u.visible = t.visible ∧ u.stats = t.stats ∧
        u.style = mergeStyle t.style patch))
      tracks (updateTrackStyle tracks trackId patch) ∧
    ((∀ t ∈ tracks, t.id ≠ trackId) →
      updateTrackStyle tracks trackId patch = tracks) := by
  constructor
  · unfold updateTrackStyle
    rw [List.forall₂_map_right_iff]
    apply List.forall₂_same.mpr
    intro t ht
    by_cases hid : t.id = trackId
    · simp [hid]
    · simp [hid]
  · intro hall
    unfold updateTrackStyle
    induction tracks with
    | nil => rfl
    | cons t rest ih =>
      simp only [List.map_cons]
      rw [if_neg (hall t (List.mem_cons_self t rest)),
        ih (fun x hx => hall x (List.mem_cons_of_mem t hx))]

/-- Witness for C10: a concrete one-track collection with a non-matching
id is returned unchanged. -/
theorem updateTrackStyle_frame_witness :
    updateTrackStyle
        [{ id := "track-1", name := "T", segments := [], style := defaultStyle,
           visible := true, stats := none }] "other"
        ⟨some "#000000", none, none, none⟩ =
      [{ id := "track-1", name := "T", segments := [], style := defaultStyle,
         visible := true, stats := none }] :=
  (updateTrackStyle_frame
      [{ id := "track-1", name := "T", segments := [], style := defaultStyle,
         visible := true, stats := none }] "other"
      ⟨some "#000000", none, none, none⟩).2
    (by
      intro t ht
      simp at ht
      rw [ht]
      decide)

end TrackVisualizer
